import Mathlib

/-!
Shallow embedding of the sahara CDH plugin utilities
(`sahara/plugins/cdh/cloudera_utils.py`) and of the periodic
reconciliation tasks (`sahara/service/periodic.py`).

Remote calls are modelled by explicit parameters (functions supplying the
outcome the backend would return); blocking waits are modelled by the
already-completed result value; exceptions are modelled with `Except`;
side-effecting remote calls are modelled by call traces (lists of the
calls issued, in order).
-/

namespace Sahara

/-- Result of `cmd.wait()` on a Cloudera `ApiCommand`: a `success` flag, a
human-readable `resultMessage`, and an optional list of child command
results (`children` is `None` in Python when the command did not fan out). -/
structure CmdResult where
  success : Bool
  resultMessage : String
  children : Option (List CmdResult)

/-- The inner loop of `cloudera_cmd` over `result.children`:
`for c in result.children: if not c.success: raise HadoopProvisionError(c.resultMessage)`.
Returns the error raised at the first failing child, or `ok` when every
child succeeded (in which case the Python loop falls through and raises
nothing). -/
def raiseFirstFailingChild : List CmdResult → Except String Unit
  | [] => Except.ok ()
  | c :: cs =>
      if !c.success then Except.error c.resultMessage
      else raiseFirstFailingChild cs

/-- The body of `cloudera_cmd`'s wrapper applied to one waited command:
`if not result.success: if result.children is not None: <child loop> else: raise
HadoopProvisionError(result.resultMessage)`. -/
def checkCmdResult (result : CmdResult) : Except String Unit :=
  if !result.success then
    match result.children with
    | some cs => raiseFirstFailingChild cs
    | none => Except.error result.resultMessage
  else Except.ok ()

/-- `cloudera_cmd` applied to the sequence of command results produced by
the wrapped generator, waited on in submission order:
`for cmd in f(*args, **kwargs): result = cmd.wait(); ...`.
A raise aborts the remaining commands. -/
def cloudera_cmd : List CmdResult → Except String Unit
  | [] => Except.ok ()
  | result :: rest =>
      match checkCmdResult result with
      | Except.error e => Except.error e
      | Except.ok () => cloudera_cmd rest

/-- Remote calls issued by `ClouderaUtils` against a service or the API
client, recorded as a trace in issue order. -/
inductive ApiCall where
  | decommissionCmd (roles : List String)
  | waitCall
  | deleteRole (name : String)
  | removeHost (hostId : String)
  | deleteHost (hostId : String)
deriving Repr, DecidableEq

/-- Recognizer for `ApiCall.deleteRole` entries in a trace. -/
def ApiCall.isDeleteRole : ApiCall → Bool
  | ApiCall.deleteRole _ => true
  | _ => false

/-- `decommission_nodes(cluster, process, role_names)`:
`service.decommission(*role_names).wait()` followed by
`for role_name in role_names: service.delete_role(role_name)`.
The result returned by `wait()` is bound to no name in the source and its
`success` flag is never inspected, so the subsequent deletions are issued
whatever that result was; no exception is raised by this function for a
failed decommission command. `decomResult` is the completed result the
backend hands back from `wait()`; the returned trace lists the remote
calls issued, paired with the outcome of the whole call. -/
def decommission_nodes (decomResult : CmdResult) (role_names : List String) :
    List ApiCall × Except String Unit :=
  (ApiCall.decommissionCmd role_names :: ApiCall.waitCall ::
      role_names.map ApiCall.deleteRole,
    Except.ok ())

/-- A host record from `api.get_all_hosts(view='full')`. -/
structure Host where
  hostname : String
  hostId : String
deriving Repr, DecidableEq

/-- A provisioned instance; only its fully-qualified domain name
(`i.fqdn()`) is consulted by the embedded operations. -/
structure Instance where
  fqdn : String
deriving Repr, DecidableEq

/-- The loop of `delete_instances` over the fetched host inventory:
`for host in hosts: if host.hostname in hostsnames_to_deleted:
cm_cluster.remove_host(host.hostId); api.delete_host(host.hostId)`.
The two remote calls can each raise; the source has no exception handler,
so the first raise aborts the loop and propagates. `remove_host` and
`delete_host` supply the backend outcome of each call by host id; the
returned trace lists the calls issued, in order, up to and including a
failing one. -/
def delete_instances_loop (remove_host delete_host : String → Except String Unit)
    (hostsnames_to_deleted : List String) :
    List Host → List ApiCall × Except String Unit
  | [] => ([], Except.ok ())
  | host :: hosts =>
      if host.hostname ∈ hostsnames_to_deleted then
        match remove_host host.hostId with
        | Except.error e => ([ApiCall.removeHost host.hostId], Except.error e)
        | Except.ok () =>
            match delete_host host.hostId with
            | Except.error e =>
                ([ApiCall.removeHost host.hostId, ApiCall.deleteHost host.hostId],
                  Except.error e)
            | Except.ok () =>
                let rec_result :=
                  delete_instances_loop remove_host delete_host
                    hostsnames_to_deleted hosts
                (ApiCall.removeHost host.hostId :: ApiCall.deleteHost host.hostId ::
                    rec_result.1,
                  rec_result.2)
      else delete_instances_loop remove_host delete_host hostsnames_to_deleted hosts

/-- `delete_instances(cluster, instances)`: fetches the inventory `hosts`,
computes `hostsnames_to_deleted = [i.fqdn() for i in instances]`, and runs
the removal loop. -/
def delete_instances (remove_host delete_host : String → Except String Unit)
    (hosts : List Host) (instances : List Instance) :
    List ApiCall × Except String Unit :=
  delete_instances_loop remove_host delete_host (instances.map Instance.fqdn) hosts

/-- A sahara cluster record as consulted by `get_cloudera_cluster`
(only its name reaches the API: `api.get_cluster(cluster.name)`). -/
structure SaharaCluster where
  name : String
deriving Repr, DecidableEq

/-- An instance together with its owning cluster, as consulted by
`get_service_by_role` via `instance.node_group.cluster`. -/
structure SaharaInstance where
  node_group_cluster : SaharaCluster
deriving Repr, DecidableEq

/-- The remote cluster object returned by `api.get_cluster(name)`. -/
structure CmCluster where
  name : String
deriving Repr, DecidableEq

/-- A remote service handle, the value of `cm_cluster.get_service(service_name)`. -/
structure Service where
  clusterName : String
  serviceName : String
deriving Repr, DecidableEq

/-- `cm_cluster.get_service(name)`. -/
def CmCluster.get_service (c : CmCluster) (serviceName : String) : Service :=
  ⟨c.name, serviceName⟩

/-- `get_cloudera_cluster(cluster)` resolves the remote cluster by the
sahara cluster's name. -/
def get_cloudera_cluster (cluster : SaharaCluster) : CmCluster :=
  ⟨cluster.name⟩

/-- The argument-resolution prefix of `get_service_by_role`:
`if cluster: cm_cluster = self.get_cloudera_cluster(cluster)
elif instance: cm_cluster = self.get_cloudera_cluster(instance.node_group.cluster)
else: raise ValueError(...)`. Returns `none` exactly when both arguments
are absent. -/
def resolveCmCluster (cluster : Option SaharaCluster)
    (inst : Option SaharaInstance) : Option CmCluster :=
  match cluster, inst with
  | some cl, _ => some (get_cloudera_cluster cl)
  | none, some i => some (get_cloudera_cluster i.node_group_cluster)
  | none, none => none

/-- `get_service_by_role(process, cluster=None, instance=None)`: resolve the
remote cluster from the arguments, then route the process identifier
through the fixed chained conditional to a service name, raising a
`ValueError` for an identifier outside the table. The service-name
constants are `HDFS_SERVICE_NAME = hdfs01`, … as on `ClouderaUtils`. -/
def get_service_by_role (process : String) (cluster : Option SaharaCluster)
    (inst : Option SaharaInstance) : Except String Service :=
  match resolveCmCluster cluster inst with
  | none => Except.error "cluster or instance argument missed"
  | some cm_cluster =>
      if process ∈ ["NAMENODE", "DATANODE", "SECONDARYNAMENODE"] then
        Except.ok (cm_cluster.get_service "hdfs01")
      else if process ∈ ["RESOURCEMANAGER", "NODEMANAGER", "JOBHISTORY"] then
        Except.ok (cm_cluster.get_service "yarn01")
      else if process ∈ ["OOZIE_SERVER"] then
        Except.ok (cm_cluster.get_service "oozie01")
      else if process ∈ ["HIVESERVER2", "HIVEMETASTORE", "WEBHCAT"] then
        Except.ok (cm_cluster.get_service "hive01")
      else if process ∈ ["HUE_SERVER"] then
        Except.ok (cm_cluster.get_service "hue01")
      else if process ∈ ["SPARK_YARN_HISTORY_SERVER"] then
        Except.ok (cm_cluster.get_service "spark_on_yarn01")
      else if process ∈ ["SERVER"] then
        Except.ok (cm_cluster.get_service "zookeeper01")
      else if process ∈ ["MASTER", "REGIONSERVER"] then
        Except.ok (cm_cluster.get_service "hbase01")
      else
        Except.error ("Process " ++ process ++ " is not supported by CDH plugin")

/-- The union of the eight membership lists tested by `get_service_by_role`. -/
def supportedProcesses : List String :=
  ["NAMENODE", "DATANODE", "SECONDARYNAMENODE",
   "RESOURCEMANAGER", "NODEMANAGER", "JOBHISTORY",
   "OOZIE_SERVER",
   "HIVESERVER2", "HIVEMETASTORE", "WEBHCAT",
   "HUE_SERVER",
   "SPARK_YARN_HISTORY_SERVER",
   "SERVER",
   "MASTER", "REGIONSERVER"]

/-- The polling loop of `await_agents`: iteration `k` runs with elapsed
time `5 * k` seconds (the 5-second `context.sleep(5)` between inventory
fetches is the loop's advance of the clock; `timeout = 300`). The loop
condition `delta_seconds(s_time, utcnow()) < timeout` is checked before
each fetch; a fetch at which every instance fqdn appears among the
inventory hostnames breaks out, otherwise the loop sleeps and retries;
when the condition fails the `while … else` clause raises the
provisioning error. `inv k` is the hostname list returned by
`api.get_all_hosts('full')` at the k-th fetch. -/
def await_agents_loop (inv : Nat → List String) (hostnames : List String)
    (k : Nat) : Except String Unit :=
  if h : 5 * k < 300 then
    if hostnames.all (fun hostname => (inv k).contains hostname) then
      Except.ok ()
    else await_agents_loop inv hostnames (k + 1)
  else
    Except.error "Cloudera agents failed to connect to Cloudera Manager"
termination_by 300 - 5 * k
decreasing_by omega

/-- `await_agents(instances)`: requires a non-empty instance list
(`instances[0]` supplies the API client) and polls from elapsed time 0. -/
def await_agents (inv : Nat → List String) (instances : List Instance) :
    Except String Unit :=
  await_agents_loop inv (instances.map Instance.fqdn) 0

/-- A cluster record as consulted by `terminate_unneeded_clusters`:
status string, transient flag, id, and the `updated_at` timestamp (in
seconds, as recovered by `parse_isotime`/`normalize_time`). -/
structure Cluster where
  id : String
  status : String
  is_transient : Bool
  updated_at : Int
deriving Repr, DecidableEq

/-- A termination action taken by `terminate_unneeded_clusters` on one
cluster: either a direct `ops.terminate_cluster(cluster.id)` attempt
(identity API v3) or a `conductor.cluster_update(..., AwaitingTermination)`. -/
inductive ReaperAction where
  | terminateCluster (id : String)
  | setAwaitingTermination (id : String)
deriving Repr, DecidableEq

/-- The cluster id an action is addressed to. -/
def ReaperAction.clusterId : ReaperAction → String
  | ReaperAction.terminateCluster id => id
  | ReaperAction.setAwaitingTermination id => id

/-- The per-cluster body of the `terminate_unneeded_clusters` loop:
skip if `not cluster.is_transient`; skip if
`job_execution_count(end_time=None, cluster_id=...) > 0`; skip if
`delta_seconds(updated_at, now) < min_transient_cluster_active_time`;
otherwise, under identity API v3 attempt `ops.terminate_cluster` (its
exceptions are caught and logged inside the loop), else update the status
to AwaitingTermination unless it already is that. `jobCount` gives the
count of job executions with no end time per cluster id. -/
def reapDecision (jobCount : String → Nat) (now minActiveTime : Int)
    (useV3 : Bool) (cluster : Cluster) : Option ReaperAction :=
  if !cluster.is_transient then none
  else if jobCount cluster.id > 0 then none
  else if now - cluster.updated_at < minActiveTime then none
  else if useV3 then some (ReaperAction.terminateCluster cluster.id)
  else if cluster.status ≠ "AwaitingTermination" then
    some (ReaperAction.setAwaitingTermination cluster.id)
  else none

/-- `terminate_unneeded_clusters(ctx)`: iterates over
`conductor.cluster_get_all(ctx, status='Active')` — the clusters whose
status is Active — and applies the per-cluster body; the actions taken
are returned as a trace in iteration order (a failed per-cluster
terminate attempt is caught inside the loop, so the loop always runs to
completion over all fetched clusters). -/
def terminate_unneeded_clusters (clusters : List Cluster)
    (jobCount : String → Nat) (now minActiveTime : Int) (useV3 : Bool) :
    List ReaperAction :=
  (clusters.filter (fun cluster => cluster.status == "Active")).filterMap
    (reapDecision jobCount now minActiveTime useV3)

/-- A proxy-domain user listed by `p.proxy_domain_users_list()`. -/
structure ProxyUser where
  name : String
  id : String
deriving Repr, DecidableEq

/-- A job execution record; `je.info['status']` is its status string. -/
structure JobExecution where
  status : String
deriving Repr, DecidableEq

/-- Python `s.startswith(pre)`: the first characters of `s` equal `pre`
(stated on the character sequences, which is what the Python operation
compares). -/
def pyStartsWith (s pre : String) : Bool :=
  s.data.take pre.data.length == pre.data

/-- Python `s[n:]`: the string made of the characters of `s` from index
`n` on. -/
def pySliceFrom (s : String) (n : Nat) : String :=
  String.mk (s.data.drop n)

/-- `check_for_zombie_proxy_users(ctx)`: for each listed proxy-domain user
whose name starts with the prefix `job_`, take `je_id = user.name[4:]`,
look the job execution up, and delete the credential
(`p.proxy_user_delete(user_id=user.id)`) when the job execution is `None`
or its status is in `edp.JOB_STATUSES_TERMINATED`; other users are left
alone. `job_execution_get` supplies the lookup and `terminatedStatuses`
stands for the `JOB_STATUSES_TERMINATED` collection (defined in
`sahara/utils/edp.py`, outside the embedded files). Returns the ids of
the users whose credentials were deleted, in iteration order. -/
def check_for_zombie_proxy_users (users : List ProxyUser)
    (job_execution_get : String → Option JobExecution)
    (terminatedStatuses : List String) : List String :=
  users.filterMap (fun user =>
    if pyStartsWith user.name "job_" then
      match job_execution_get (pySliceFrom user.name 4) with
      | none => some user.id
      | some je =>
          if je.status ∈ terminatedStatuses then some user.id else none
    else none)

/-- `context.set_ctx(x)`: replaces the thread-local execution context. -/
def set_ctx (newCtx oldCtx : Option String) : Option String :=
  newCtx

/-- `update_job_statuses(ctx)`: `ctx = context.get_admin_context();
context.set_ctx(ctx); job_manager.update_job_statuses();
context.set_ctx(None)`. There is no try/finally, so when the collaborator
call raises, the trailing `set_ctx(None)` is skipped and the exception
propagates. `collab` is the outcome of
`job_manager.update_job_statuses()`; the admin context is modelled as
`some "admin"`. Returns the call outcome paired with the context left in
place afterwards. -/
def update_job_statuses (collab : Except String Unit) (ctx0 : Option String) :
    Except String Unit × Option String :=
  let ctx1 := set_ctx (some "admin") ctx0
  match collab with
  | Except.error e => (Except.error e, ctx1)
  | Except.ok () => (Except.ok (), set_ctx none ctx1)

theorem raiseFirstFailingChild_eq_error_of_find (cs : List CmdResult)
    (c : CmdResult)
    (h : cs.find? (fun child => !child.success) = some c) :
    raiseFirstFailingChild cs = Except.error c.resultMessage := by
  induction cs with
  | nil => simp at h
  | cons hd tl ih =>
      by_cases hs : hd.success = true
      · rw [List.find?_cons_of_neg _ (by simp [hs])] at h
        simpa [raiseFirstFailingChild, hs] using ih h
      · rw [List.find?_cons_of_pos _ (by simp [hs])] at h
        cases h
        simp [raiseFirstFailingChild, hs]

theorem raiseFirstFailingChild_eq_ok_of_all (cs : List CmdResult)
    (h : ∀ c ∈ cs, c.success = true) :
    raiseFirstFailingChild cs = Except.ok () := by
  induction cs with
  | nil => rfl
  | cons hd tl ih =>
      have hhd : hd.success = true := h hd (List.mem_cons_self hd tl)
      simpa [raiseFirstFailingChild, hhd] using
        ih (fun c hc => h c (List.mem_cons_of_mem hd hc))

/-- C3: cloudera_cmd waits on Commands in submission order; a Command that
completed with success = true raises nothing and the next Command is
processed; one with success = false whose children sequence is non-null and
whose first failing child is c raises a provisioning error carrying
c.resultMessage; one with success = false and null children raises a
provisioning error carrying its own resultMessage. -/
theorem cloudera_cmd_sequence_cases :
    (∀ (result : CmdResult) (rest : List CmdResult), result.success = true →
      cloudera_cmd (result :: rest) = cloudera_cmd rest) ∧
    (∀ (result : CmdResult) (rest cs : List CmdResult) (c : CmdResult),
      result.success = false → result.children = some cs →
      cs.find? (fun child => !child.success) = some c →
      cloudera_cmd (result :: rest) = Except.error c.resultMessage) ∧
    (∀ (result : CmdResult) (rest : List CmdResult), result.success = false →
      result.children = none →
      cloudera_cmd (result :: rest) = Except.error result.resultMessage) := by
  refine ⟨fun result rest h => ?_, fun result rest cs c h hch hfind => ?_,
    fun result rest h hch => ?_⟩
  · simp [cloudera_cmd, checkCmdResult, h]
  · have hc := raiseFirstFailingChild_eq_error_of_find cs c hfind
    simp [cloudera_cmd, checkCmdResult, h, hch, hc]
  · simp [cloudera_cmd, checkCmdResult, h, hch]

/-- C3 witness: a concrete two-command run in which the second command failed
with children [ok, failed]; the run raises the first failing child's
message. -/
theorem cloudera_cmd_sequence_cases_witness :
    cloudera_cmd
        [CmdResult.mk true "first ok" none,
         CmdResult.mk false "parent failed"
           (some [CmdResult.mk true "child ok" none,
                  CmdResult.mk false "child failed" none])] =
      Except.error "child failed" := by
  rw [cloudera_cmd_sequence_cases.1 _ _ rfl]
  exact cloudera_cmd_sequence_cases.2.1 _ []
    [CmdResult.mk true "child ok" none, CmdResult.mk false "child failed" none]
    (CmdResult.mk false "child failed" none) rfl rfl rfl

/-- C2 counterexample: a Command completing with success = false whose
children sequence is non-null but contains no failed child (here: the empty
sequence) is silently swallowed — cloudera_cmd raises nothing and returns
normally, refuting the claim that every failed Command raises a
provisioning error whatever its children sequence holds. -/
theorem cloudera_cmd_swallows_failed_command :
    (CmdResult.mk false "command failed" (some [])).success = false ∧
    cloudera_cmd [CmdResult.mk false "command failed" (some [])] =
      Except.ok () :=
  ⟨rfl, rfl⟩

/-- C2 (amended): a Command waited on by cloudera_cmd that completes with
success = false raises a provisioning error when its children sequence is
null or contains at least one failed child; when its children sequence is
non-null with every child successful, the failure is silently swallowed and
processing continues with the next Command. -/
theorem cloudera_cmd_failed_command_raises_or_swallows :
    (∀ (result : CmdResult) (rest : List CmdResult), result.success = false →
      (result.children = none ∨
        ∃ cs, result.children = some cs ∧ ∃ c ∈ cs, c.success = false) →
      ∃ msg, cloudera_cmd (result :: rest) = Except.error msg) ∧
    (∀ (result : CmdResult) (rest cs : List CmdResult), result.success = false →
      result.children = some cs → (∀ c ∈ cs, c.success = true) →
      cloudera_cmd (result :: rest) = cloudera_cmd rest) := by
  constructor
  · intro result rest h hcases
    rcases hcases with hnone | ⟨cs, hch, c, hc, hcf⟩
    · exact ⟨result.resultMessage, by simp [cloudera_cmd, checkCmdResult, h, hnone]⟩
    · have hsome : (cs.find? (fun child => !child.success)).isSome := by
        rw [List.find?_isSome]
        exact ⟨c, hc, by simp [hcf]⟩
      rcases Option.isSome_iff_exists.mp hsome with ⟨c0, hfind⟩
      have hc0 := raiseFirstFailingChild_eq_error_of_find cs c0 hfind
      exact ⟨c0.resultMessage, by simp [cloudera_cmd, checkCmdResult, h, hch, hc0]⟩
  · intro result rest cs h hch hall
    have hok := raiseFirstFailingChild_eq_ok_of_all cs hall
    simp [cloudera_cmd, checkCmdResult, h, hch, hok]

/-- C2 (amended) witness: a failed childless Command raises, and a failed
Command whose two children both succeeded is swallowed. -/
theorem cloudera_cmd_failed_command_raises_or_swallows_witness :
    (∃ msg, cloudera_cmd [CmdResult.mk false "own message" none] =
      Except.error msg) ∧
    cloudera_cmd
        [CmdResult.mk false "parent failed"
          (some [CmdResult.mk true "a" none, CmdResult.mk true "b" none])] =
      cloudera_cmd [] := by
  constructor
  · exact cloudera_cmd_failed_command_raises_or_swallows.1 _ [] rfl (Or.inl rfl)
  · exact cloudera_cmd_failed_command_raises_or_swallows.2 _ []
      [CmdResult.mk true "a" none, CmdResult.mk true "b" none] rfl rfl
      (by intro c hc; fin_cases hc <;> rfl)

/-- C1 counterexample: with a decommission Command that completed with
success = false, decommission_nodes still issues one delete_role call per
role name (here one, not zero) and returns without raising, refuting the
claim that on a failed decommission no role deletion is issued and the
error propagates. -/
theorem decommission_nodes_deletes_after_failed_decommission :
    (CmdResult.mk false "decommission failed" none).success = false ∧
    decommission_nodes (CmdResult.mk false "decommission failed" none)
        ["role1"] =
      ([ApiCall.decommissionCmd ["role1"], ApiCall.waitCall,
        ApiCall.deleteRole "role1"], Except.ok ()) ∧
    ((decommission_nodes (CmdResult.mk false "decommission failed" none)
        ["role1"]).1.countP ApiCall.isDeleteRole) = 1 :=
  ⟨rfl, rfl, rfl⟩

/-- C1 (amended): decommission_nodes issues its role deletions only after
the decommission Command's wait has returned, but it never inspects the
success flag of the waited result: for every completed decommission result,
failed or not, it issues exactly one delete_role call per role name, after
the decommission/wait pair and in role_names order, and it returns without
raising any error. -/
theorem decommission_nodes_ignores_decommission_outcome
    (decomResult : CmdResult) (role_names : List String) :
    decommission_nodes decomResult role_names =
      (ApiCall.decommissionCmd role_names :: ApiCall.waitCall ::
        role_names.map ApiCall.deleteRole, Except.ok ()) ∧
    ((decommission_nodes decomResult role_names).1.countP
        ApiCall.isDeleteRole) = role_names.length := by
  refine ⟨rfl, ?_⟩
  simp [decommission_nodes, ApiCall.isDeleteRole, List.countP_cons]

/-- C4 counterexample: two hosts which both match the instances to delete;
the membership-removal call on the first host fails, and because the loop
has no per-host exception handling, the failure aborts the loop — neither
the removal nor the deletion of the second matching host is attempted,
refuting the claim that a failure on one matching host does not prevent
the remove/delete steps on the remaining matching hosts. -/
theorem delete_instances_failure_blocks_remaining_hosts :
    delete_instances (fun _ => Except.error "removal failed")
        (fun _ => Except.ok ())
        [Host.mk "a.example.com" "id1", Host.mk "b.example.com" "id2"]
        [Instance.mk "a.example.com", Instance.mk "b.example.com"] =
      ([ApiCall.removeHost "id1"], Except.error "removal failed") ∧
    ApiCall.removeHost "id2" ∉
      (delete_instances (fun _ => Except.error "removal failed")
        (fun _ => Except.ok ())
        [Host.mk "a.example.com" "id1", Host.mk "b.example.com" "id2"]
        [Instance.mk "a.example.com", Instance.mk "b.example.com"]).1 ∧
    ApiCall.deleteHost "id2" ∉
      (delete_instances (fun _ => Except.error "removal failed")
        (fun _ => Except.ok ())
        [Host.mk "a.example.com" "id1", Host.mk "b.example.com" "id2"]
        [Instance.mk "a.example.com", Instance.mk "b.example.com"]).1 := by
  refine ⟨rfl, ?_, ?_⟩ <;> decide

theorem delete_instances_loop_all_ok
    (remove_host delete_host : String → Except String Unit)
    (hostsnames_to_deleted : List String)
    (hrm : ∀ hostId, remove_host hostId = Except.ok ())
    (hdl : ∀ hostId, delete_host hostId = Except.ok ()) :
    ∀ hosts : List Host,
      delete_instances_loop remove_host delete_host hostsnames_to_deleted
          hosts =
        ((hosts.filter
            (fun h => decide (h.hostname ∈ hostsnames_to_deleted))).flatMap
            (fun h => [ApiCall.removeHost h.hostId, ApiCall.deleteHost h.hostId]),
          Except.ok ()) := by
  intro hosts
  induction hosts with
  | nil => rfl
  | cons host tl ih =>
      by_cases hmem : host.hostname ∈ hostsnames_to_deleted
      · simp [delete_instances_loop, hmem, hrm, hdl, ih, List.filter_cons]
      · simp [delete_instances_loop, hmem, ih, List.filter_cons]

theorem delete_instances_loop_ok_prefix
    (remove_host delete_host : String → Except String Unit)
    (hostsnames_to_deleted : List String) :
    ∀ (hosts1 rest : List Host),
      (∀ h ∈ hosts1, h.hostname ∈ hostsnames_to_deleted →
        remove_host h.hostId = Except.ok () ∧
        delete_host h.hostId = Except.ok ()) →
      delete_instances_loop remove_host delete_host hostsnames_to_deleted
          (hosts1 ++ rest) =
        ((hosts1.filter
            (fun h => decide (h.hostname ∈ hostsnames_to_deleted))).flatMap
            (fun h => [ApiCall.removeHost h.hostId, ApiCall.deleteHost h.hostId]) ++
          (delete_instances_loop remove_host delete_host hostsnames_to_deleted
            rest).1,
          (delete_instances_loop remove_host delete_host hostsnames_to_deleted
            rest).2) := by
  intro hosts1
  induction hosts1 with
  | nil => intro rest _; simp
  | cons host tl ih =>
      intro rest hok
      by_cases hmem : host.hostname ∈ hostsnames_to_deleted
      · obtain ⟨hrm, hdl⟩ := hok host (List.mem_cons_self host tl) hmem
        have := ih rest (fun h hh => hok h (List.mem_cons_of_mem host hh))
        simp [delete_instances_loop, hmem, hrm, hdl, this, List.filter_cons]
      · have := ih rest (fun h hh => hok h (List.mem_cons_of_mem host hh))
        simp [delete_instances_loop, hmem, this, List.filter_cons]

/-- C4 (amended): when every remote call succeeds, delete_instances attempts
both removal from the cluster and global deletion, in that order, for
exactly the hosts whose hostname equals the fully-qualified name of one of
the given instances, and returns without error; but a failing remote call —
in either step, at any matching host of the inventory whose preceding
matching hosts were processed without failure — aborts the loop with that
error: the trace ends at the failing host's calls and no call is attempted
on any later host, matching or not. -/
theorem delete_instances_per_host_calls
    (remove_host delete_host : String → Except String Unit)
    (hosts : List Host) (instances : List Instance) :
    ((∀ hostId, remove_host hostId = Except.ok ()) →
      (∀ hostId, delete_host hostId = Except.ok ()) →
      delete_instances remove_host delete_host hosts instances =
        ((hosts.filter
            (fun h => decide (h.hostname ∈ instances.map Instance.fqdn))).flatMap
            (fun h => [ApiCall.removeHost h.hostId, ApiCall.deleteHost h.hostId]),
          Except.ok ())) ∧
    (∀ (hosts1 : List Host) (host : Host) (hosts2 : List Host) (e : String),
      hosts = hosts1 ++ host :: hosts2 →
      (∀ h ∈ hosts1, h.hostname ∈ instances.map Instance.fqdn →
        remove_host h.hostId = Except.ok () ∧
        delete_host h.hostId = Except.ok ()) →
      host.hostname ∈ instances.map Instance.fqdn →
      remove_host host.hostId = Except.error e →
      delete_instances remove_host delete_host hosts instances =
        ((hosts1.filter
            (fun h => decide (h.hostname ∈ instances.map Instance.fqdn))).flatMap
            (fun h => [ApiCall.removeHost h.hostId, ApiCall.deleteHost h.hostId]) ++
          [ApiCall.removeHost host.hostId],
          Except.error e)) ∧
    (∀ (hosts1 : List Host) (host : Host) (hosts2 : List Host) (e : String),
      hosts = hosts1 ++ host :: hosts2 →
      (∀ h ∈ hosts1, h.hostname ∈ instances.map Instance.fqdn →
        remove_host h.hostId = Except.ok () ∧
        delete_host h.hostId = Except.ok ()) →
      host.hostname ∈ instances.map Instance.fqdn →
      remove_host host.hostId = Except.ok () →
      delete_host host.hostId = Except.error e →
      delete_instances remove_host delete_host hosts instances =
        ((hosts1.filter
            (fun h => decide (h.hostname ∈ instances.map Instance.fqdn))).flatMap
            (fun h => [ApiCall.removeHost h.hostId, ApiCall.deleteHost h.hostId]) ++
          [ApiCall.removeHost host.hostId, ApiCall.deleteHost host.hostId],
          Except.error e)) := by
  refine ⟨?_, ?_, ?_⟩
  · intro hrm hdl
    exact delete_instances_loop_all_ok remove_host delete_host _ hrm hdl hosts
  · intro hosts1 host hosts2 e hsplit hok hmem hfail
    subst hsplit
    rw [delete_instances, delete_instances_loop_ok_prefix remove_host
      delete_host _ hosts1 (host :: hosts2) hok]
    simp [delete_instances_loop, hmem, hfail]
  · intro hosts1 host hosts2 e hsplit hok hmem hrmok hfail
    subst hsplit
    rw [delete_instances, delete_instances_loop_ok_prefix remove_host
      delete_host _ hosts1 (host :: hosts2) hok]
    simp [delete_instances_loop, hmem, hrmok, hfail]

/-- C4 (amended) witness: with all calls succeeding, both steps are issued
for the single matching host and the non-matching host is skipped; with a
removal failing on the second of three matching hosts, the loop stops right
after that removal and the third host gets no call; and with a deletion
failing on the second of two matching hosts, the loop stops right after
that deletion. -/
theorem delete_instances_per_host_calls_witness :
    delete_instances (fun _ => Except.ok ()) (fun _ => Except.ok ())
        [Host.mk "a.example.com" "id1", Host.mk "c.example.com" "id3"]
        [Instance.mk "a.example.com"] =
      ([ApiCall.removeHost "id1", ApiCall.deleteHost "id1"], Except.ok ()) ∧
    delete_instances
        (fun hostId => if hostId = "id2" then Except.error "remove boom"
          else Except.ok ())
        (fun _ => Except.ok ())
        [Host.mk "a.example.com" "id1", Host.mk "b.example.com" "id2",
          Host.mk "c.example.com" "id3"]
        [Instance.mk "a.example.com", Instance.mk "b.example.com",
          Instance.mk "c.example.com"] =
      ([ApiCall.removeHost "id1", ApiCall.deleteHost "id1",
        ApiCall.removeHost "id2"], Except.error "remove boom") ∧
    delete_instances (fun _ => Except.ok ())
        (fun hostId => if hostId = "id2" then Except.error "delete boom"
          else Except.ok ())
        [Host.mk "a.example.com" "id1", Host.mk "b.example.com" "id2"]
        [Instance.mk "a.example.com", Instance.mk "b.example.com"] =
      ([ApiCall.removeHost "id1", ApiCall.deleteHost "id1",
        ApiCall.removeHost "id2", ApiCall.deleteHost "id2"],
        Except.error "delete boom") := by
  refine ⟨?_, ?_, ?_⟩
  · exact ((delete_instances_per_host_calls (fun _ => Except.ok ())
      (fun _ => Except.ok ())
      [Host.mk "a.example.com" "id1", Host.mk "c.example.com" "id3"]
      [Instance.mk "a.example.com"]).1 (fun _ => rfl) (fun _ => rfl)).trans
      rfl
  · exact ((delete_instances_per_host_calls
      (fun hostId => if hostId = "id2" then Except.error "remove boom"
        else Except.ok ())
      (fun _ => Except.ok ())
      [Host.mk "a.example.com" "id1", Host.mk "b.example.com" "id2",
        Host.mk "c.example.com" "id3"]
      [Instance.mk "a.example.com", Instance.mk "b.example.com",
        Instance.mk "c.example.com"]).2.1
      [Host.mk "a.example.com" "id1"] (Host.mk "b.example.com" "id2")
      [Host.mk "c.example.com" "id3"] "remove boom" rfl
      (by intro h hh _
          rw [List.mem_singleton] at hh
          subst hh
          exact ⟨rfl, rfl⟩)
      (by decide) rfl).trans rfl
  · exact ((delete_instances_per_host_calls (fun _ => Except.ok ())
      (fun hostId => if hostId = "id2" then Except.error "delete boom"
        else Except.ok ())
      [Host.mk "a.example.com" "id1", Host.mk "b.example.com" "id2"]
      [Instance.mk "a.example.com", Instance.mk "b.example.com"]).2.2
      [Host.mk "a.example.com" "id1"] (Host.mk "b.example.com" "id2")
      [] "delete boom" rfl
      (by intro h hh _
          rw [List.mem_singleton] at hh
          subst hh
          exact ⟨rfl, rfl⟩)
      (by decide) rfl rfl).trans rfl

theorem reapDecision_some_spec (jobCount : String → Nat)
    (now minActiveTime : Int) (useV3 : Bool) (cluster : Cluster)
    (a : ReaperAction)
    (h : reapDecision jobCount now minActiveTime useV3 cluster = some a) :
    a = (if useV3 = true then ReaperAction.terminateCluster cluster.id
         else ReaperAction.setAwaitingTermination cluster.id) ∧
    cluster.is_transient = true ∧ jobCount cluster.id = 0 ∧
    minActiveTime ≤ now - cluster.updated_at := by
  by_cases ht : cluster.is_transient = true
  · by_cases hj : jobCount cluster.id > 0
    · simp [reapDecision, ht, hj] at h
    · by_cases hs : now - cluster.updated_at < minActiveTime
      · simp [reapDecision, ht, hj, hs] at h
      · by_cases hv : useV3 = true
        · simp [reapDecision, ht, hj, hs, hv] at h
          exact ⟨by simp [hv, h], ht, by omega, by omega⟩
        · by_cases hst : cluster.status = "AwaitingTermination"
          · simp [reapDecision, ht, hj, hs, hv, hst] at h
          · simp [reapDecision, ht, hj, hs, hv, hst] at h
            exact ⟨by simp [hv, h], ht, by omega, by omega⟩
  · simp [reapDecision, ht] at h

theorem reapDecision_some_of_guards (jobCount : String → Nat)
    (now minActiveTime : Int) (useV3 : Bool) (cluster : Cluster)
    (hstat : cluster.status = "Active") (ht : cluster.is_transient = true)
    (hj : jobCount cluster.id = 0)
    (hs : minActiveTime ≤ now - cluster.updated_at) :
    reapDecision jobCount now minActiveTime useV3 cluster =
      some (if useV3 = true then ReaperAction.terminateCluster cluster.id
            else ReaperAction.setAwaitingTermination cluster.id) := by
  have hj2 : ¬jobCount cluster.id > 0 := by omega
  have hs2 : ¬now - cluster.updated_at < minActiveTime := by omega
  by_cases hv : useV3 = true
  · simp [reapDecision, ht, hj2, hs2, hv]
  · have hne : cluster.status ≠ "AwaitingTermination" := by
      rw [hstat]; decide
    simp [reapDecision, ht, hj2, hs2, hv, hne]

/-- C5: in one terminate_unneeded_clusters cycle, a cluster receives a
termination action if and only if its status is Active, it is transient,
its count of job executions with no end time is zero, and the seconds
elapsed since updated_at are at least min_transient_cluster_active_time;
and the action taken is a direct terminate_cluster under identity API v3,
otherwise a status update to AwaitingTermination. A cluster failing any
guard gets no action in the cycle. -/
theorem terminate_unneeded_clusters_guard_iff (clusters : List Cluster)
    (jobCount : String → Nat) (now minActiveTime : Int) (useV3 : Bool)
    (c : Cluster) (hc : c ∈ clusters)
    (hids : (clusters.map Cluster.id).Nodup) :
    ((∃ a ∈ terminate_unneeded_clusters clusters jobCount now minActiveTime
        useV3, a.clusterId = c.id) ↔
      (c.status = "Active" ∧ c.is_transient = true ∧ jobCount c.id = 0 ∧
        minActiveTime ≤ now - c.updated_at)) ∧
    (∀ a ∈ terminate_unneeded_clusters clusters jobCount now minActiveTime
        useV3, a.clusterId = c.id →
      a = (if useV3 = true then ReaperAction.terminateCluster c.id
           else ReaperAction.setAwaitingTermination c.id)) := by
  have hinj := List.inj_on_of_nodup_map hids
  have hfrom : ∀ a ∈ terminate_unneeded_clusters clusters jobCount now
      minActiveTime useV3, a.clusterId = c.id →
      c.status = "Active" ∧ c.is_transient = true ∧ jobCount c.id = 0 ∧
      minActiveTime ≤ now - c.updated_at ∧
      a = (if useV3 = true then ReaperAction.terminateCluster c.id
           else ReaperAction.setAwaitingTermination c.id) := by
    intro a ha haid
    rcases List.mem_filterMap.mp ha with ⟨c0, hc0, hdec⟩
    rcases List.mem_filter.mp hc0 with ⟨hc0mem, hc0active⟩
    obtain ⟨haeq, htr, hj0, hsp⟩ :=
      reapDecision_some_spec jobCount now minActiveTime useV3 c0 a hdec
    have hacid : a.clusterId = c0.id := by
      by_cases hv : useV3 = true <;>
        simp [haeq, hv, ReaperAction.clusterId]
    have hceq : c0 = c := hinj hc0mem hc (by rw [← hacid, haid])
    subst hceq
    exact ⟨by simpa using hc0active, htr, hj0, hsp, haeq⟩
  constructor
  · constructor
    · rintro ⟨a, ha, haid⟩
      obtain ⟨h1, h2, h3, h4, _⟩ := hfrom a ha haid
      exact ⟨h1, h2, h3, h4⟩
    · rintro ⟨hstat, htr, hj0, hsp⟩
      refine ⟨if useV3 = true then ReaperAction.terminateCluster c.id
        else ReaperAction.setAwaitingTermination c.id, ?_, ?_⟩
      · exact List.mem_filterMap.mpr ⟨c,
          List.mem_filter.mpr ⟨hc, by simp [hstat]⟩,
          reapDecision_some_of_guards jobCount now minActiveTime useV3 c
            hstat htr hj0 hsp⟩
      · by_cases hv : useV3 = true <;> simp [hv, ReaperAction.clusterId]
  · intro a ha haid
    exact (hfrom a ha haid).2.2.2.2

/-- C5 witness: one idle transient Active cluster past the minimum
lifetime receives the terminate action under identity API v3, while an
identical cluster still running a job execution receives none. -/
theorem terminate_unneeded_clusters_guard_iff_witness :
    (∃ a ∈ terminate_unneeded_clusters
        [Cluster.mk "c1" "Active" true 0] (fun _ => 0) 100 30 true,
      a.clusterId = "c1") ∧
    ¬(∃ a ∈ terminate_unneeded_clusters
        [Cluster.mk "c2" "Active" true 0] (fun _ => 1) 100 30 true,
      a.clusterId = "c2") := by
  constructor
  · exact (terminate_unneeded_clusters_guard_iff
      [Cluster.mk "c1" "Active" true 0] (fun _ => 0) 100 30 true
      (Cluster.mk "c1" "Active" true 0) (by simp) (by simp)).1.mpr
      ⟨rfl, rfl, rfl, by decide⟩
  · intro hex
    have := (terminate_unneeded_clusters_guard_iff
      [Cluster.mk "c2" "Active" true 0] (fun _ => 1) 100 30 true
      (Cluster.mk "c2" "Active" true 0) (by simp) (by simp)).1.mp hex
    simp at this

/-- C6: given a cluster or an instance resolving to the remote cluster cm,
get_service_by_role returns exactly the service named by the fixed table
(NAMENODE/DATANODE/SECONDARYNAMENODE -> hdfs01; RESOURCEMANAGER/NODEMANAGER/
JOBHISTORY -> yarn01; OOZIE_SERVER -> oozie01; HIVESERVER2/HIVEMETASTORE/
WEBHCAT -> hive01; HUE_SERVER -> hue01; SPARK_YARN_HISTORY_SERVER ->
spark_on_yarn01; SERVER -> zookeeper01; MASTER/REGIONSERVER -> hbase01) and
raises an explicit unsupported-process error for every process identifier
outside the table. -/
theorem get_service_by_role_table (process : String)
    (cluster : Option SaharaCluster) (inst : Option SaharaInstance)
    (cm : CmCluster) (hres : resolveCmCluster cluster inst = some cm) :
    (process ∈ ["NAMENODE", "DATANODE", "SECONDARYNAMENODE"] →
      get_service_by_role process cluster inst =
        Except.ok (cm.get_service "hdfs01")) ∧
    (process ∈ ["RESOURCEMANAGER", "NODEMANAGER", "JOBHISTORY"] →
      get_service_by_role process cluster inst =
        Except.ok (cm.get_service "yarn01")) ∧
    (process = "OOZIE_SERVER" →
      get_service_by_role process cluster inst =
        Except.ok (cm.get_service "oozie01")) ∧
    (process ∈ ["HIVESERVER2", "HIVEMETASTORE", "WEBHCAT"] →
      get_service_by_role process cluster inst =
        Except.ok (cm.get_service "hive01")) ∧
    (process = "HUE_SERVER" →
      get_service_by_role process cluster inst =
        Except.ok (cm.get_service "hue01")) ∧
    (process = "SPARK_YARN_HISTORY_SERVER" →
      get_service_by_role process cluster inst =
        Except.ok (cm.get_service "spark_on_yarn01")) ∧
    (process = "SERVER" →
      get_service_by_role process cluster inst =
        Except.ok (cm.get_service "zookeeper01")) ∧
    (process ∈ ["MASTER", "REGIONSERVER"] →
      get_service_by_role process cluster inst =
        Except.ok (cm.get_service "hbase01")) ∧
    (process ∉ supportedProcesses →
      get_service_by_role process cluster inst =
        Except.error
          ("Process " ++ process ++ " is not supported by CDH plugin")) := by
  refine ⟨?_, ?_, ?_, ?_, ?_, ?_, ?_, ?_, ?_⟩ <;> intro hp
  · fin_cases hp <;> (unfold get_service_by_role; rw [hres]; rfl)
  · fin_cases hp <;> (unfold get_service_by_role; rw [hres]; rfl)
  · subst hp; unfold get_service_by_role; rw [hres]; rfl
  · fin_cases hp <;> (unfold get_service_by_role; rw [hres]; rfl)
  · subst hp; unfold get_service_by_role; rw [hres]; rfl
  · subst hp; unfold get_service_by_role; rw [hres]; rfl
  · subst hp; unfold get_service_by_role; rw [hres]; rfl
  · fin_cases hp <;> (unfold get_service_by_role; rw [hres]; rfl)
  · simp only [supportedProcesses, List.mem_cons, List.not_mem_nil,
      or_false, not_or] at hp
    unfold get_service_by_role
    rw [hres]
    simp [hp.1, hp.2.1, hp.2.2.1, hp.2.2.2.1, hp.2.2.2.2.1, hp.2.2.2.2.2.1,
      hp.2.2.2.2.2.2.1, hp.2.2.2.2.2.2.2.1, hp.2.2.2.2.2.2.2.2.1,
      hp.2.2.2.2.2.2.2.2.2.1, hp.2.2.2.2.2.2.2.2.2.2.1,
      hp.2.2.2.2.2.2.2.2.2.2.2.1, hp.2.2.2.2.2.2.2.2.2.2.2.2.1,
      hp.2.2.2.2.2.2.2.2.2.2.2.2.2.1, hp.2.2.2.2.2.2.2.2.2.2.2.2.2.2]

/-- C6 witness: DATANODE routes to the hdfs01 service on the cluster given
directly, and an identifier outside the table raises the
unsupported-process error. -/
theorem get_service_by_role_table_witness :
    get_service_by_role "DATANODE" (some (SaharaCluster.mk "cl1")) none =
      Except.ok (Service.mk "cl1" "hdfs01") ∧
    get_service_by_role "FLINK_MASTER" (some (SaharaCluster.mk "cl1")) none =
      Except.error "Process FLINK_MASTER is not supported by CDH plugin" := by
  constructor
  · exact (get_service_by_role_table "DATANODE"
      (some (SaharaCluster.mk "cl1")) none (CmCluster.mk "cl1") rfl).1
      (by decide)
  · exact ((get_service_by_role_table "FLINK_MASTER"
      (some (SaharaCluster.mk "cl1")) none
      (CmCluster.mk "cl1") rfl).2.2.2.2.2.2.2.2 (by decide)).trans rfl

/-- C10: when both a cluster argument and an instance argument are supplied
to get_service_by_role, the cluster argument takes precedence: the result is
the same as with the instance argument absent, and the remote cluster is
resolved from the cluster given directly, ignoring the instance and its
owning cluster. -/
theorem get_service_by_role_cluster_precedence (process : String)
    (cl : SaharaCluster) (inst : SaharaInstance) :
    get_service_by_role process (some cl) (some inst) =
      get_service_by_role process (some cl) none ∧
    resolveCmCluster (some cl) (some inst) = some (get_cloudera_cluster cl) :=
  ⟨rfl, rfl⟩

/-- C7: in one check_for_zombie_proxy_users cycle, a listed proxy-domain
user's credential is deleted if and only if the user's name starts with
job_ and the job execution identified by the remainder of the name is
either absent or has a status in the terminated set; users whose names do
not start with job_, and users whose referenced job execution exists with a
non-terminal status, are left untouched. -/
theorem check_for_zombie_proxy_users_iff (users : List ProxyUser)
    (job_execution_get : String → Option JobExecution)
    (terminatedStatuses : List String) (u : ProxyUser) (hu : u ∈ users)
    (hids : (users.map ProxyUser.id).Nodup) :
    u.id ∈ check_for_zombie_proxy_users users job_execution_get
        terminatedStatuses ↔
      (pyStartsWith u.name "job_" = true ∧
        (job_execution_get (pySliceFrom u.name 4) = none ∨
          ∃ je, job_execution_get (pySliceFrom u.name 4) = some je ∧
            je.status ∈ terminatedStatuses)) := by
  have hinj := List.inj_on_of_nodup_map hids
  unfold check_for_zombie_proxy_users
  rw [List.mem_filterMap]
  constructor
  · rintro ⟨v, hv, hdec⟩
    by_cases hstart : pyStartsWith v.name "job_" = true
    · simp only [hstart, if_true] at hdec
      cases hje : job_execution_get (pySliceFrom v.name 4) with
      | none =>
          rw [hje] at hdec
          simp only [Option.some.injEq] at hdec
          have hvu : v = u := hinj hv hu hdec
          subst hvu
          exact ⟨hstart, Or.inl hje⟩
      | some je =>
          rw [hje] at hdec
          by_cases hterm : je.status ∈ terminatedStatuses
          · simp only [hterm, if_true, Option.some.injEq] at hdec
            have hvu : v = u := hinj hv hu hdec
            subst hvu
            exact ⟨hstart, Or.inr ⟨je, hje, hterm⟩⟩
          · simp [hterm] at hdec
    · simp [hstart] at hdec
  · rintro ⟨hstart, hnone | ⟨je, hje, hterm⟩⟩
    · exact ⟨u, hu, by simp [hstart, hnone]⟩
    · exact ⟨u, hu, by simp [hstart, hje, hterm]⟩

/-- C7 witness: a job_-named user whose job execution is gone is deleted; a
user named outside the pattern is untouched even though its lookup would be
terminal; a job_-named user whose job execution is still running is
untouched. -/
theorem check_for_zombie_proxy_users_iff_witness :
    "uid1" ∈ check_for_zombie_proxy_users [ProxyUser.mk "job_42" "uid1"]
        (fun _ => none) ["KILLED"] ∧
    "uid2" ∉ check_for_zombie_proxy_users [ProxyUser.mk "alice" "uid2"]
        (fun _ => none) ["KILLED"] ∧
    "uid3" ∉ check_for_zombie_proxy_users [ProxyUser.mk "job_7" "uid3"]
        (fun _ => some (JobExecution.mk "RUNNING")) ["KILLED"] := by
  refine ⟨?_, ?_, ?_⟩
  · exact (check_for_zombie_proxy_users_iff [ProxyUser.mk "job_42" "uid1"]
      (fun _ => none) ["KILLED"] (ProxyUser.mk "job_42" "uid1")
      (by simp) (by simp)).mpr ⟨by decide, Or.inl rfl⟩
  · intro hmem
    have h := (check_for_zombie_proxy_users_iff [ProxyUser.mk "alice" "uid2"]
      (fun _ => none) ["KILLED"] (ProxyUser.mk "alice" "uid2")
      (by simp) (by simp)).mp hmem
    exact absurd h.1 (by decide)
  · intro hmem
    have h := (check_for_zombie_proxy_users_iff [ProxyUser.mk "job_7" "uid3"]
      (fun _ => some (JobExecution.mk "RUNNING")) ["KILLED"]
      (ProxyUser.mk "job_7" "uid3") (by simp) (by simp)).mp hmem
    rcases h.2 with hnone | ⟨je, hje, hterm⟩
    · exact Option.noConfusion hnone
    · rw [Option.some.injEq] at hje
      rw [← hje] at hterm
      exact absurd hterm (by decide)

theorem await_agents_loop_ok_of_found (inv : Nat → List String)
    (hostnames : List String) :
    ∀ n k, 60 ≤ k + n →
      (∃ m, k ≤ m ∧ 5 * m < 300 ∧
        hostnames.all (fun hostname => (inv m).contains hostname) = true) →
      await_agents_loop inv hostnames k = Except.ok () := by
  intro n
  induction n with
  | zero =>
      intro k hk ⟨m, hkm, hm, _⟩
      omega
  | succ n ih =>
      intro k hk ⟨m, hkm, hm, hpres⟩
      have h5 : 5 * k < 300 := by omega
      by_cases hpk : hostnames.all (fun hostname => (inv k).contains hostname) = true
      · rw [await_agents_loop, dif_pos h5, if_pos hpk]
      · have hmk : m ≠ k := by
          intro heq; rw [heq] at hpres; exact hpk hpres
        rw [await_agents_loop, dif_pos h5, if_neg hpk]
        exact ih (k + 1) (by omega) ⟨m, by omega, hm, hpres⟩

theorem await_agents_loop_error_of_absent (inv : Nat → List String)
    (hostnames : List String) :
    ∀ n k, 60 ≤ k + n →
      (∀ m, 5 * m < 300 →
        ¬(hostnames.all (fun hostname => (inv m).contains hostname) = true)) →
      await_agents_loop inv hostnames k =
        Except.error "Cloudera agents failed to connect to Cloudera Manager" := by
  intro n
  induction n with
  | zero =>
      intro k hk _
      have h5 : ¬5 * k < 300 := by omega
      rw [await_agents_loop, dif_neg h5]
  | succ n ih =>
      intro k hk habs
      by_cases h5 : 5 * k < 300
      · rw [await_agents_loop, dif_pos h5, if_neg (habs k h5)]
        exact ih (k + 1) (by omega) habs
      · rw [await_agents_loop, dif_neg h5]

/-- C8: for every non-empty list of instances, await_agents returns
normally when some polled full host inventory taken within the 300-second
timeout (polls every 5 seconds) contains the fully-qualified name of every
instance, and raises the fatal agents-failed-to-connect provisioning error
when every poll within the timeout window still misses at least one
instance name. -/
theorem await_agents_ok_or_timeout (inv : Nat → List String)
    (instances : List Instance) (hne : instances ≠ []) :
    ((∃ m, 5 * m < 300 ∧
        (instances.map Instance.fqdn).all
          (fun hostname => (inv m).contains hostname) = true) →
      await_agents inv instances = Except.ok ()) ∧
    ((∀ m, 5 * m < 300 →
        ¬((instances.map Instance.fqdn).all
          (fun hostname => (inv m).contains hostname) = true)) →
      await_agents inv instances =
        Except.error "Cloudera agents failed to connect to Cloudera Manager") := by
  constructor
  · rintro ⟨m, hm, hpres⟩
    exact await_agents_loop_ok_of_found inv _ 60 0 (by omega)
      ⟨m, Nat.zero_le m, hm, hpres⟩
  · intro habs
    exact await_agents_loop_error_of_absent inv _ 60 0 (by omega) habs

/-- C8 witness: a single instance whose name is in every inventory
succeeds; a single instance whose name never appears times out with the
fatal error. -/
theorem await_agents_ok_or_timeout_witness :
    await_agents (fun _ => ["a.example.com"]) [Instance.mk "a.example.com"] =
      Except.ok () ∧
    await_agents (fun _ => []) [Instance.mk "a.example.com"] =
      Except.error "Cloudera agents failed to connect to Cloudera Manager" := by
  constructor
  · exact (await_agents_ok_or_timeout (fun _ => ["a.example.com"])
      [Instance.mk "a.example.com"] (by simp)).1 ⟨0, by omega, by decide⟩
  · exact (await_agents_ok_or_timeout (fun _ => [])
      [Instance.mk "a.example.com"] (by simp)).2 (fun m _ => by decide)

/-- C9 counterexample: when the job-status collaborator raises,
update_job_statuses skips the trailing set_ctx(None) — the call ends with
the administrative context still set, refuting the claim that the context
is cleared regardless of whether the collaborator returns or raises. -/
theorem update_job_statuses_context_left_set_on_error :
    update_job_statuses (Except.error "collaborator failed") none =
      (Except.error "collaborator failed", some "admin") ∧
    (update_job_statuses (Except.error "collaborator failed") none).2 ≠
      none := ⟨rfl, by decide⟩

/-- C9 (amended): update_job_statuses establishes an administrative
execution context before delegating to the job-status collaborator; when
the collaborator returns normally the context is cleared to None, but when
it raises, the exception propagates with the administrative context still
set — the context is not cleared on the error path. -/
theorem update_job_statuses_context (collab : Except String Unit)
    (ctx0 : Option String) :
    (collab = Except.ok () →
      update_job_statuses collab ctx0 = (Except.ok (), none)) ∧
    (∀ e, collab = Except.error e →
      update_job_statuses collab ctx0 = (Except.error e, some "admin")) := by
  constructor
  · intro h; subst h; rfl
  · intro e h; subst h; rfl

/-- C9 (amended) witness: a successful collaborator run ends with the
context cleared; a raising one ends with the administrative context still
set. -/
theorem update_job_statuses_context_witness :
    update_job_statuses (Except.ok ()) (some "prior") = (Except.ok (), none) ∧
    update_job_statuses (Except.error "boom") (some "prior") =
      (Except.error "boom", some "admin") :=
  ⟨(update_job_statuses_context (Except.ok ()) (some "prior")).1 rfl,
    (update_job_statuses_context (Except.error "boom") (some "prior")).2
      "boom" rfl⟩

end Sahara
